import Mathlib

/-!
Verification of the pgp-mfa challenge/verification core (src/main.go) against
its natural-language specification.

The Go program is shallowly embedded: byte strings are `List Nat` (each
element a byte value), `time.Time` instants are `Int` nanosecond counts,
fallible operations return `Except String`, and the external collaborators
(system RNG, key repository, gopenpgp encryption provider, stdin reader) are
explicit oracle parameters.  Every definition is translated from the source
file `src/main.go` (line numbers cited in the doc comments).
-/

namespace PgpMfa

/-- Byte values of the Go constant `challengeCharset` (src/main.go line 24):
the string "abcdefghijklmnopqrstuvwxyzABCDEFGHIJKLMNOPQRSTUVWXYZ0123456789"
followed by the punctuation characters, listed here as byte values because Go
indexes the string by byte. -/
def challengeCharset : List Nat :=
  [97, 98, 99, 100, 101, 102, 103, 104, 105, 106, 107, 108, 109, 110, 111,
   112, 113, 114, 115, 116, 117, 118, 119, 120, 121, 122,
   65, 66, 67, 68, 69, 70, 71, 72, 73, 74, 75, 76, 77, 78, 79, 80, 81, 82,
   83, 84, 85, 86, 87, 88, 89, 90,
   48, 49, 50, 51, 52, 53, 54, 55, 56, 57,
   45, 95, 43, 47, 92, 39, 34, 33, 64, 35, 36, 37, 94, 38, 42, 40, 41, 91,
   93, 123, 125, 60, 62, 63, 44, 46, 59, 58]

/-- The Go variable `ChallengeSolveTime = time.Minute * 1` (src/main.go
line 35), in nanoseconds (Go `time.Duration` is a nanosecond count). -/
def ChallengeSolveTime : Int := 60 * 1000000000

/-- Models src/main.go line 230, `exp := time.Now().Add(ChallengeSolveTime)`:
the absolute expiry instant computed once from the creation instant. -/
def sessionExpiresAt (creation : Int) : Int := creation + ChallengeSolveTime

/-- Models `crypto/subtle.ConstantTimeCompare` as called on src/main.go
line 263: returns 1 when the two byte slices have equal length and equal
contents, 0 otherwise; the Go implementation ORs together the XORs of all
byte pairs and tests the accumulator against 0. -/
def constantTimeCompare (x y : List Nat) : Nat :=
  if x.length = y.length then
    if (x.zip y).foldl (fun acc p => acc ||| (p.1 ^^^ p.2)) 0 = 0 then 1 else 0
  else 0

/-- Byte-level model of Go white space as recognised by `strings.TrimSpace`
on ASCII input: tab, newline, vertical tab, form feed, carriage return,
space. -/
def isSpaceByte (c : Nat) : Bool :=
  c = 9 || c = 10 || c = 11 || c = 12 || c = 13 || c = 32

/-- Models `strings.TrimSpace` (src/main.go line 263) on ASCII byte strings:
drop white-space bytes from the front, then from the back. -/
def trimSpace (s : List Nat) : List Nat :=
  ((s.dropWhile isSpaceByte).reverse.dropWhile isSpaceByte).reverse

/-- One event of the stdin oracle driving the verification loop
(src/main.go lines 250-269): `reader.ReadString` either fails with an error
or delivers a line `s`, and `t` is the wall-clock instant observed by the
expiry check for that iteration. -/
inductive ReadEvent
  | err (msg : String)
  | line (t : Int) (s : List Nat)
deriving DecidableEq

/-- Result of the verification loop: `solved` models the `break` after
"challenge solved!", `expired` the `challenge has expired` return, `readErr`
the propagated read failure, and `pending` a finite event trace that was
exhausted with the loop still waiting for the next candidate. -/
inductive LoopResult
  | solved
  | expired
  | readErr (msg : String)
  | pending
deriving DecidableEq

/-- The verification loop of `challenge` (src/main.go lines 250-269),
with the stdin reads and clock reads supplied as the event trace: per
iteration, a failed read returns the wrapped error; an empty line is
skipped; then expiry is checked (`exp.Before(time.Now())`, that is
`exp < t`); then the trimmed candidate is compared to the secret in
constant time, breaking on a match and looping on a mismatch. -/
def verifyLoop (exp : Int) (secret : List Nat) : List ReadEvent → LoopResult
  | [] => .pending
  | .err msg :: _ => .readErr ("failed to read input: " ++ msg)
  | .line t s :: rest =>
    if s.length = 0 then verifyLoop exp secret rest
    else if exp < t then .expired
    else if constantTimeCompare (trimSpace s) secret = 1 then .solved
    else verifyLoop exp secret rest

/-- `generateChallenge` (src/main.go lines 174-184), with the system RNG
modelled as the oracle `randFn`: reading `length` random bytes either fails
(wrapped error) or yields a buffer, and each buffer byte is replaced by
`challengeCharset[b % len(challengeCharset)]`.  `List.getD` with default 0
models Go's indexing, which is always in bounds because `b % 90 < 90`. -/
def generateChallenge (length : Nat) (randFn : Nat → Except String (List Nat)) :
    Except String (List Nat) :=
  match randFn length with
  | .error e => .error ("failed to generate challenge: " ++ e)
  | .ok buffer =>
    .ok (buffer.map fun b => challengeCharset.getD (b % challengeCharset.length) 0)

/-- The gopenpgp encryption collaborator of `encryptChallenge` (src/main.go
lines 186-200): building the recipient-scoped context
(`crypto.PGP().Encryption().Recipient(key).New()`), encrypting, and armoring
are each fallible.  The ciphertext is a byte string, the armored form a
text string. -/
structure Provider where
  newCtx : Except String Unit
  encrypt : List Nat → Except String (List Nat)
  armor : List Nat → Except String String

/-- `encryptChallenge` (src/main.go lines 186-200): build the pgp context,
encrypt the challenge, armor the result; each failure is wrapped with a
stage-identifying message, and success returns the raw ciphertext bytes
together with the armored text. -/
def encryptChallenge (p : Provider) (challenge : List Nat) :
    Except String (List Nat × String) :=
  match p.newCtx with
  | .error e => .error ("failed to create pgp context: " ++ e)
  | .ok _ =>
    match p.encrypt challenge with
    | .error e => .error ("failed to encrypt challenge: " ++ e)
    | .ok encrypted =>
      match p.armor encrypted with
      | .error e => .error ("failed to armor challenge: " ++ e)
      | .ok armored => .ok (encrypted, armored)

/-- Decimal-integer syntax accepted by `strconv.Atoi`: an optional sign
followed by at least one digit, nothing else.  Returns `none` on a syntax
error. -/
def parseDec (cs : List Char) : Option Int :=
  let core : List Char → Option Nat := fun ds =>
    if ds ≠ [] ∧ ds.all (fun c => 48 ≤ c.toNat ∧ c.toNat ≤ 57) then
      some (ds.foldl (fun a c => a * 10 + (c.toNat - 48)) 0)
    else none
  match cs with
  | [] => none
  | c :: rest =>
    if c = Char.ofNat 43 then (core rest).map Int.ofNat
    else if c = Char.ofNat 45 then (core rest).map (fun n => -(Int.ofNat n))
    else (core cs).map Int.ofNat

/-- Models `length, _ := strconv.Atoi(args[0])` (src/main.go line 206): the
error is discarded, so a syntax error leaves the zero value 0, and a decimal
that overflows the 64-bit int range leaves the clamped extreme value that
`strconv.ParseInt` reports alongside its range error. -/
def goAtoi (s : String) : Int :=
  match parseDec s.data with
  | none => 0
  | some v =>
    if v > 9223372036854775807 then 9223372036854775807
    else if v < -9223372036854775808 then -9223372036854775808
    else v

/-- The distinguishable errors of the `challenge` command (src/main.go
lines 202-228): `errChallengeLength` and `errChallengePow` are the sentinel
values `ErrChallengeLength` and `ErrChallengePow` (lines 46-47); the other
constructors carry the propagated message of a collaborator failure. -/
inductive ChallengeError
  | usage
  | errChallengeLength
  | errChallengePow
  | keyError (msg : String)
  | genError (msg : String)
  | encryptError (msg : String)
  | tempFileError (msg : String)
deriving DecidableEq

/-- Externally observable side steps of the `challenge` command, recorded in
order so that a theorem can state that validation fails before any of them
happens. -/
inductive Effect
  | keyLookup
  | secretGen
  | encryptStep
deriving DecidableEq

/-- The external collaborators of the `challenge` command: the key
repository lookup `getKey` (src/main.go lines 121-172, keyed by the
fingerprint argument, "" meaning interactive selection), the system RNG
`randFn`, and the gopenpgp provider. -/
structure Collab where
  getKey : String → Except String Unit
  randFn : Nat → Except String (List Nat)
  provider : Provider

/-- Setup phase of the `challenge` command (src/main.go lines 202-230),
up to the computation of the expiry instant: validate the argument count,
parse the length with the parse error discarded, reject out-of-range
lengths with `ErrChallengeLength` and in-range non-powers-of-two with
`ErrChallengePow` (via `length & (length-1) != 0`), then look the key up,
generate the challenge, encrypt it, and fix `exp = now + ChallengeSolveTime`.
The second component lists the collaborator steps that were reached.  On
success it returns the secret bytes, the armored text and the expiry
instant consumed by `verifyLoop` (the loop body of lines 250-269). -/
def challenge (args : List String) (collab : Collab) (now : Int) :
    Except ChallengeError (List Nat × String × Int) × List Effect :=
  if args.length < 1 then (.error .usage, [])
  else
    let length := goAtoi (args.headD "")
    if length ≤ 0 ∨ length > 512 then (.error .errChallengeLength, [])
    else if length.toNat &&& (length.toNat - 1) ≠ 0 then (.error .errChallengePow, [])
    else
      let fingerprint := if args.length > 1 then args.getD 1 "" else ""
      match collab.getKey fingerprint with
      | .error e => (.error (.keyError e), [.keyLookup])
      | .ok _ =>
        match generateChallenge length.toNat collab.randFn with
        | .error e => (.error (.genError e), [.keyLookup, .secretGen])
        | .ok challengeBytes =>
          match encryptChallenge collab.provider challengeBytes with
          | .error e => (.error (.encryptError e), [.keyLookup, .secretGen, .encryptStep])
          | .ok (_, armored) =>
            (.ok (challengeBytes, armored, sessionExpiresAt now),
             [.keyLookup, .secretGen, .encryptStep])

/-- A provider for concrete evaluations: context creation succeeds, the
ciphertext is the plaintext, armoring yields a fixed string. -/
def stubProvider : Provider :=
  { newCtx := .ok ()
    encrypt := fun c => .ok c
    armor := fun _ => .ok "ARMORED" }

/-- Collaborators for concrete evaluations: the key lookup succeeds and the
RNG delivers `n` zero bytes. -/
def stubCollab : Collab :=
  { getKey := fun _ => .ok ()
    randFn := fun n => .ok (List.replicate n 0)
    provider := stubProvider }

/-! Helper lemmas about the embedded primitives. -/

lemma nat_or_eq_zero (a b : Nat) : a ||| b = 0 ↔ a = 0 ∧ b = 0 := by
  constructor
  · intro h
    constructor
    · apply Nat.eq_of_testBit_eq
      intro i
      have hb := congrArg (fun n => n.testBit i) h
      simp only [Nat.testBit_lor, Nat.zero_testBit, Bool.or_eq_false_iff] at hb
      simp [hb.1]
    · apply Nat.eq_of_testBit_eq
      intro i
      have hb := congrArg (fun n => n.testBit i) h
      simp only [Nat.testBit_lor, Nat.zero_testBit, Bool.or_eq_false_iff] at hb
      simp [hb.2]
  · rintro ⟨rfl, rfl⟩
    rfl

lemma foldl_or_xor_eq_zero (l : List (Nat × Nat)) (acc : Nat) :
    l.foldl (fun a p => a ||| (p.1 ^^^ p.2)) acc = 0 ↔
      acc = 0 ∧ ∀ p ∈ l, p.1 = p.2 := by
  induction l generalizing acc with
  | nil => simp
  | cons hd tl ih =>
    simp only [List.foldl_cons, ih, List.mem_cons, nat_or_eq_zero]
    constructor
    · rintro ⟨⟨ha, hx⟩, htl⟩
      refine ⟨ha, fun p hp => ?_⟩
      rcases hp with rfl | hp
      · exact Nat.xor_eq_zero.mp hx
      · exact htl p hp
    · rintro ⟨ha, hall⟩
      exact ⟨⟨ha, Nat.xor_eq_zero.mpr (hall hd (Or.inl rfl))⟩,
             fun p hp => hall p (Or.inr hp)⟩

lemma zip_pointwise_eq (x y : List Nat) (hlen : x.length = y.length)
    (h : ∀ p ∈ x.zip y, p.1 = p.2) : x = y := by
  induction x generalizing y with
  | nil => cases y with
    | nil => rfl
    | cons b ys => simp at hlen
  | cons a xs ih =>
    cases y with
    | nil => simp at hlen
    | cons b ys =>
      simp only [List.zip_cons_cons, List.mem_cons] at h
      simp only [List.length_cons, Nat.succ_inj] at hlen
      have hab : a = b := h (a, b) (Or.inl rfl)
      have : xs = ys := ih ys hlen (fun p hp => h p (Or.inr hp))
      rw [hab, this]

lemma constantTimeCompare_eq_one_iff (x y : List Nat) :
    constantTimeCompare x y = 1 ↔ x = y := by
  unfold constantTimeCompare
  constructor
  · intro h
    by_cases hlen : x.length = y.length
    · simp only [hlen, if_true] at h
      by_cases hz : (x.zip y).foldl (fun a p => a ||| (p.1 ^^^ p.2)) 0 = 0
      · exact zip_pointwise_eq x y hlen
          ((foldl_or_xor_eq_zero (x.zip y) 0).mp hz).2
      · simp [hz] at h
    · simp [hlen] at h
  · rintro rfl
    have hz : (x.zip x).foldl (fun a p => a ||| (p.1 ^^^ p.2)) 0 = 0 := by
      apply (foldl_or_xor_eq_zero (x.zip x) 0).mpr
      refine ⟨rfl, ?_⟩
      induction x with
      | nil => simp
      | cons a t ih =>
        intro p hp
        rw [List.zip_cons_cons] at hp
        rcases List.mem_cons.mp hp with rfl | hp
        · rfl
        · exact ih p hp
    rw [if_pos rfl, if_pos hz]

lemma dropWhile_append_all (p : Nat → Bool) (l₁ l₂ : List Nat)
    (h : ∀ a ∈ l₁, p a = true) :
    (l₁ ++ l₂).dropWhile p = l₂.dropWhile p := by
  induction l₁ with
  | nil => rfl
  | cons a t ih =>
    rw [List.cons_append, List.dropWhile_cons_of_pos (h a (List.mem_cons_self a t))]
    exact ih (fun b hb => h b (List.mem_cons_of_mem a hb))

lemma dropWhile_head_neg (p : Nat → Bool) (l : List Nat) (hne : l ≠ [])
    (h : p (l.head hne) = false) : l.dropWhile p = l := by
  cases l with
  | nil => exact absurd rfl hne
  | cons a t =>
    exact List.dropWhile_cons_of_neg (by simp_all)

lemma charset_not_space : ∀ c ∈ challengeCharset, isSpaceByte c = false := by
  decide

lemma trimSpace_surround (secret ws₁ ws₂ : List Nat) (hsec : secret ≠ [])
    (hns : ∀ c ∈ secret, isSpaceByte c = false)
    (hw₁ : ∀ c ∈ ws₁, isSpaceByte c = true)
    (hw₂ : ∀ c ∈ ws₂, isSpaceByte c = true) :
    trimSpace (ws₁ ++ (secret ++ ws₂)) = secret := by
  unfold trimSpace
  rw [dropWhile_append_all isSpaceByte ws₁ (secret ++ ws₂) hw₁]
  have hhead : isSpaceByte ((secret ++ ws₂).head (by simp [hsec])) = false := by
    have : (secret ++ ws₂).head (by simp [hsec]) = secret.head hsec := by
      cases secret with
      | nil => exact absurd rfl hsec
      | cons a t => rfl
    rw [this]
    exact hns _ (List.head_mem hsec)
  rw [dropWhile_head_neg isSpaceByte (secret ++ ws₂) (by simp [hsec]) hhead]
  rw [List.reverse_append]
  rw [dropWhile_append_all isSpaceByte ws₂.reverse secret.reverse
    (fun c hc => hw₂ c (List.mem_reverse.mp hc))]
  have hrne : secret.reverse ≠ [] := by simp [hsec]
  have hrhead : isSpaceByte (secret.reverse.head hrne) = false :=
    hns _ (List.mem_reverse.mp (List.head_mem hrne))
  rw [dropWhile_head_neg isSpaceByte secret.reverse hrne hrhead,
    List.reverse_reverse]

lemma trimSpace_self (secret : List Nat) (hsec : secret ≠ [])
    (hns : ∀ c ∈ secret, isSpaceByte c = false) : trimSpace secret = secret := by
  have := trimSpace_surround secret [] [] hsec hns (by simp) (by simp)
  simpa using this

lemma verifyLoop_step_line (exp t : Int) (secret s : List Nat)
    (rest : List ReadEvent) (hs : s ≠ []) :
    verifyLoop exp secret (.line t s :: rest) =
      if exp < t then .expired
      else if trimSpace s = secret then .solved
      else verifyLoop exp secret rest := by
  have hlen : ¬ s.length = 0 := by simpa using hs
  by_cases heq : trimSpace s = secret
  · have hc : constantTimeCompare (trimSpace s) secret = 1 :=
      (constantTimeCompare_eq_one_iff (trimSpace s) secret).mpr heq
    rw [heq] at hc
    simp [verifyLoop, hlen, hc, heq]
  · have hc : ¬ constantTimeCompare (trimSpace s) secret = 1 := fun h =>
      heq ((constantTimeCompare_eq_one_iff (trimSpace s) secret).mp h)
    simp [verifyLoop, hlen, hc, heq]

lemma verifyLoop_append_mismatches (exp : Int) (secret : List Nat)
    (l₁ l₂ : List ReadEvent)
    (h : ∀ e ∈ l₁, ∃ t s, e = ReadEvent.line t s ∧ t ≤ exp ∧ s ≠ [] ∧
      trimSpace s ≠ secret) :
    verifyLoop exp secret (l₁ ++ l₂) = verifyLoop exp secret l₂ := by
  induction l₁ with
  | nil => rfl
  | cons ev t ih =>
    obtain ⟨tt, s, hev, ht, hs, hmm⟩ := h ev (List.mem_cons_self ev t)
    subst hev
    rw [List.cons_append, verifyLoop_step_line exp tt secret s (t ++ l₂) hs,
      if_neg (not_lt.mpr ht), if_neg hmm]
    exact ih (fun x hx => h x (List.mem_cons_of_mem _ hx))

lemma getD_mem_of_lt (l : List Nat) (n d : Nat) (h : n < l.length) :
    l.getD n d ∈ l := by
  rw [List.getD_eq_getElem l d h]
  exact List.getElem_mem h

lemma challenge_ok_expiry (s : String) (rest : List String) (collab : Collab)
    (now : Int) (res : List Nat × String × Int)
    (h : (challenge (s :: rest) collab now).1 = .ok res) :
    res.2.2 = sessionExpiresAt now := by
  have hlen : ¬ (s :: rest).length < 1 := by simp
  simp only [challenge, if_neg hlen, List.headD_cons] at h
  by_cases h1 : goAtoi s ≤ 0 ∨ goAtoi s > 512
  · rw [if_pos h1] at h
    simp at h
  rw [if_neg h1] at h
  by_cases h2 : (goAtoi s).toNat &&& ((goAtoi s).toNat - 1) ≠ 0
  · rw [if_pos h2] at h
    simp at h
  rw [if_neg h2] at h
  rcases hk : collab.getKey
      (if (s :: rest).length > 1 then (s :: rest).getD 1 "" else "") with e | u
  · rw [hk] at h
    simp at h
  rw [hk] at h
  rcases hg : generateChallenge (goAtoi s).toNat collab.randFn with e | cb
  · rw [hg] at h
    simp at h
  rw [hg] at h
  simp only [] at h
  rcases he : encryptChallenge collab.provider cb with e | pair
  · rw [he] at h
    simp at h
  rw [he] at h
  obtain ⟨ct, ar⟩ := pair
  simp only [Except.ok.injEq] at h
  rw [← h]

/-! Claim theorems. -/

/-- C1 (counterexample): the claim says a candidate submitted at `t ≥
expiresAt` is always `Expired`, but the code (src/main.go line 260) uses
`exp.Before(time.Now())`, a strict comparison, so a correct candidate
submitted exactly at the expiry instant (here `exp = t = 5`) is still
compared and solves the challenge. -/
theorem verify_at_exact_expiry_still_compares :
    verifyLoop 5 [97] [ReadEvent.line 5 [97, 10]] = .solved ∧
      LoopResult.solved ≠ LoopResult.expired := by
  decide

/-- C1 (amended): expiry is checked before the candidate is compared, with
the strict deadline the code implements: a candidate submitted at `t >
expiresAt` yields `Expired` regardless of its content, and the equality
comparison is reached only when `t ≤ expiresAt`. -/
theorem verify_expiry_checked_before_compare (exp t : Int) (secret s : List Nat)
    (rest : List ReadEvent) (hs : s ≠ []) :
    (exp < t → verifyLoop exp secret (.line t s :: rest) = .expired) ∧
    (t ≤ exp → verifyLoop exp secret (.line t s :: rest) =
      if trimSpace s = secret then .solved else verifyLoop exp secret rest) := by
  constructor
  · intro ht
    rw [verifyLoop_step_line exp t secret s rest hs, if_pos ht]
  · intro ht
    rw [verifyLoop_step_line exp t secret s rest hs, if_neg (not_lt.mpr ht)]

/-- C1 witness: a correct candidate one tick past the deadline is rejected
as expired. -/
theorem verify_expiry_checked_before_compare_witness :
    verifyLoop 5 [97] [ReadEvent.line 6 [97, 10]] = .expired :=
  (verify_expiry_checked_before_compare 5 6 [97] [97, 10] [] (by decide)).1
    (by decide)

/-- C2 (counterexample): the claim speaks of a 91-character alphabet, but
the `challengeCharset` of src/main.go line 24 contains 90 characters. -/
theorem challengeCharset_has_ninety_characters :
    challengeCharset.length = 90 ∧ challengeCharset.length ≠ 91 := by
  decide

/-- C2 (amended): for every valid length (a power of two between 1 and 512),
when the random source succeeds, `generateChallenge` returns exactly that
many bytes, each one obtained by reducing a random byte modulo the alphabet
size and substituting the corresponding character of the fixed 90-character
alphabet, so every output byte belongs to that alphabet. -/
theorem generateChallenge_length_and_alphabet (L : Nat)
    (randFn : Nat → Except String (List Nat)) (buf : List Nat)
    (_h1 : 1 ≤ L) (_h2 : L ≤ 512) (_hpow : L &&& (L - 1) = 0)
    (hr : randFn L = .ok buf) (hlen : buf.length = L) :
    challengeCharset.length = 90 ∧
    ∃ out, generateChallenge L randFn = .ok out ∧ out.length = L ∧
      ∀ c ∈ out, c ∈ challengeCharset := by
  refine ⟨by decide,
    buf.map fun b => challengeCharset.getD (b % challengeCharset.length) 0,
    ?_, ?_, ?_⟩
  · unfold generateChallenge
    rw [hr]
  · rw [List.length_map, hlen]
  · intro c hc
    obtain ⟨b, hb, rfl⟩ := List.mem_map.mp hc
    exact getD_mem_of_lt challengeCharset (b % challengeCharset.length) 0
      (Nat.mod_lt _ (by decide))

/-- C2 witness: length 2 with a stub RNG delivering two zero bytes yields
the two-byte secret "aa", inside the alphabet. -/
theorem generateChallenge_length_and_alphabet_witness :
    challengeCharset.length = 90 ∧
    ∃ out, generateChallenge 2 stubCollab.randFn = .ok out ∧ out.length = 2 ∧
      ∀ c ∈ out, c ∈ challengeCharset :=
  generateChallenge_length_and_alphabet 2 stubCollab.randFn [0, 0]
    (by decide) (by decide) (by decide) rfl rfl

/-- C8: `encryptChallenge` has exactly three separately reportable failure
points, each identified by its own message prefix (context creation,
encryption, armoring), and on success it returns both the raw ciphertext
bytes and the armored text. -/
theorem encryptChallenge_three_failure_points (p : Provider) (c : List Nat) :
    (∀ e, p.newCtx = .error e →
      encryptChallenge p c = .error ("failed to create pgp context: " ++ e)) ∧
    (∀ e, p.newCtx = .ok () → p.encrypt c = .error e →
      encryptChallenge p c = .error ("failed to encrypt challenge: " ++ e)) ∧
    (∀ ct e, p.newCtx = .ok () → p.encrypt c = .ok ct → p.armor ct = .error e →
      encryptChallenge p c = .error ("failed to armor challenge: " ++ e)) ∧
    (∀ ct ar, p.newCtx = .ok () → p.encrypt c = .ok ct → p.armor ct = .ok ar →
      encryptChallenge p c = .ok (ct, ar)) := by
  refine ⟨?_, ?_, ?_, ?_⟩ <;> intros <;> unfold encryptChallenge <;> simp_all

/-- C8 witness: with a provider whose context creation fails, the error names
the context stage. -/
theorem encryptChallenge_three_failure_points_witness :
    encryptChallenge (Provider.mk (.error "boom") (fun c => .ok c)
        (fun _ => .ok "A")) [1] =
      .error ("failed to create pgp context: " ++ "boom") :=
  (encryptChallenge_three_failure_points
    (Provider.mk (.error "boom") (fun c => .ok c) (fun _ => .ok "A")) [1]).1
    "boom" rfl

/-- C9: a failed read of a candidate terminates the verification loop at
once: the wrapped read error is returned for every state of the remaining
stream, before any expiry check or comparison for that attempt. -/
theorem read_error_terminates_loop (exp : Int) (secret : List Nat)
    (msg : String) (rest : List ReadEvent) :
    verifyLoop exp secret (ReadEvent.err msg :: rest) =
      .readErr ("failed to read input: " ++ msg) := rfl

/-- C3: invalid challenge lengths fail fast with the distinguished error and
no collaborator step is reached: a parsed length that is out of range (≤ 0
or > 512) fails with `ErrChallengeLength`, an in-range length that is not a
power of two fails with `ErrChallengePow`, and in both cases the effect
trace is empty — no key lookup, no secret generation, no encryption. -/
theorem challenge_invalid_length_fails_fast (s : String) (rest : List String)
    (collab : Collab) (now : Int) :
    ((goAtoi s ≤ 0 ∨ goAtoi s > 512) →
      challenge (s :: rest) collab now = (.error .errChallengeLength, [])) ∧
    (0 < goAtoi s → goAtoi s ≤ 512 →
      (goAtoi s).toNat &&& ((goAtoi s).toNat - 1) ≠ 0 →
      challenge (s :: rest) collab now = (.error .errChallengePow, [])) := by
  have hlen : ¬ (s :: rest).length < 1 := by simp
  constructor
  · intro h
    simp only [challenge, if_neg hlen, List.headD_cons, if_pos h]
  · intro h1 h2 h3
    have hnot : ¬ (goAtoi s ≤ 0 ∨ goAtoi s > 512) := by omega
    simp only [challenge, if_neg hlen, List.headD_cons, if_neg hnot, if_pos h3]

/-- C3 witness: length 600 is rejected as out of range, length 15 as not a
power of two, both with an empty effect trace. -/
theorem challenge_invalid_length_fails_fast_witness :
    challenge ["600"] stubCollab 0 = (.error .errChallengeLength, []) ∧
    challenge ["15"] stubCollab 0 = (.error .errChallengePow, []) :=
  ⟨(challenge_invalid_length_fails_fast "600" [] stubCollab 0).1
      (Or.inr (by decide)),
   (challenge_invalid_length_fails_fast "15" [] stubCollab 0).2
      (by decide) (by decide) (by decide)⟩

/-- C4: the loop realises `Pending → (Matched | Expired)` with `Mismatched`
as a self-loop: any finite trace of non-matching, non-empty candidates
submitted at or before the deadline leaves the loop pending with the session
unchanged (no retry limit: the trace is arbitrary), and appending one
matching candidate before the deadline ends the loop in the solved state. -/
theorem verify_loop_state_machine (exp : Int) (secret : List Nat)
    (events : List ReadEvent)
    (h : ∀ e ∈ events, ∃ t s, e = ReadEvent.line t s ∧ t ≤ exp ∧ s ≠ [] ∧
      trimSpace s ≠ secret) :
    verifyLoop exp secret events = .pending ∧
    ∀ t s, t ≤ exp → s ≠ [] → trimSpace s = secret →
      verifyLoop exp secret (events ++ [ReadEvent.line t s]) = .solved := by
  constructor
  · simpa using verifyLoop_append_mismatches exp secret events [] h
  · intro t s ht hs hm
    rw [verifyLoop_append_mismatches exp secret events [ReadEvent.line t s] h,
      verifyLoop_step_line exp t secret s [] hs, if_neg (not_lt.mpr ht),
      if_pos hm]

/-- C4 witness: three consecutive mismatches followed by the correct
candidate, all before expiry, end in the solved state. -/
theorem verify_loop_state_machine_witness :
    verifyLoop 100 [97] [ReadEvent.line 1 [98, 10], ReadEvent.line 2 [99, 10],
      ReadEvent.line 3 [100, 10], ReadEvent.line 4 [97, 10]] = .solved := by
  have h : ∀ e ∈ [ReadEvent.line 1 [98, 10], ReadEvent.line 2 [99, 10],
      ReadEvent.line 3 [100, 10]], ∃ t s, e = ReadEvent.line t s ∧
      t ≤ (100 : Int) ∧ s ≠ [] ∧ trimSpace s ≠ [97] := by
    intro e he
    rcases List.mem_cons.mp he with rfl | he
    · exact ⟨1, [98, 10], rfl, by decide, by decide, by decide⟩
    rcases List.mem_cons.mp he with rfl | he
    · exact ⟨2, [99, 10], rfl, by decide, by decide, by decide⟩
    rcases List.mem_cons.mp he with rfl | he
    · exact ⟨3, [100, 10], rfl, by decide, by decide, by decide⟩
    · cases he
  exact (verify_loop_state_machine 100 [97] _ h).2 4 [97, 10]
    (by decide) (by decide) (by decide)

/-- C5: before the deadline, a submitted candidate solves the challenge
exactly when its whitespace-trimmed form equals the secret byte for byte
(otherwise the loop continues with the remaining stream), and a candidate
that differs from the secret only by surrounding whitespace still solves it,
because the secret's bytes all come from the whitespace-free alphabet. -/
theorem verify_matched_iff_trimmed_equals_secret (exp t : Int)
    (secret s : List Nat) (rest : List ReadEvent) (hs : s ≠ []) (ht : t ≤ exp) :
    (verifyLoop exp secret (.line t s :: rest) =
      if trimSpace s = secret then .solved else verifyLoop exp secret rest) ∧
    (∀ ws₁ ws₂, secret ≠ [] → (∀ c ∈ secret, c ∈ challengeCharset) →
      (∀ c ∈ ws₁, isSpaceByte c = true) → (∀ c ∈ ws₂, isSpaceByte c = true) →
      verifyLoop exp secret (.line t (ws₁ ++ (secret ++ ws₂)) :: rest) =
        .solved) := by
  constructor
  · rw [verifyLoop_step_line exp t secret s rest hs, if_neg (not_lt.mpr ht)]
  · intro ws₁ ws₂ hsec hchar hw₁ hw₂
    have hns : ∀ c ∈ secret, isSpaceByte c = false := fun c hc =>
      charset_not_space c (hchar c hc)
    have htrim := trimSpace_surround secret ws₁ ws₂ hsec hns hw₁ hw₂
    have hne : ws₁ ++ (secret ++ ws₂) ≠ [] := by simp [hsec]
    rw [verifyLoop_step_line exp t secret _ rest hne,
      if_neg (not_lt.mpr ht), if_pos htrim]

/-- C5 witness: the candidate " a\n", differing from the secret "a" only in
surrounding whitespace, solves the challenge. -/
theorem verify_matched_iff_trimmed_equals_secret_witness :
    verifyLoop 10 [97] [ReadEvent.line 0 [32, 97, 10]] = .solved :=
  (verify_matched_iff_trimmed_equals_secret 10 0 [97] [97, 10] []
      (by decide) (by decide)).2 [32] [10]
    (by decide) (by decide) (by decide) (by decide)

/-- C7: the expiry instant is the construction-time clock reading plus the
fixed one-minute solve window `ChallengeSolveTime`; a successful `challenge`
run hands exactly that instant to the loop, and each loop iteration both
checks expiry against that same instant and recurses with it unchanged. -/
theorem expiresAt_fixed_at_construction (args : List String) (collab : Collab)
    (t0 t : Int) (secret s : List Nat) (rest : List ReadEvent) (hs : s ≠ []) :
    ChallengeSolveTime = 60 * 1000000000 ∧
    sessionExpiresAt t0 = t0 + ChallengeSolveTime ∧
    (∀ res, (challenge args collab t0).1 = .ok res →
      res.2.2 = sessionExpiresAt t0) ∧
    verifyLoop (sessionExpiresAt t0) secret (.line t s :: rest) =
      (if sessionExpiresAt t0 < t then .expired
       else if trimSpace s = secret then .solved
       else verifyLoop (sessionExpiresAt t0) secret rest) := by
  refine ⟨rfl, rfl, ?_, verifyLoop_step_line _ t secret s rest hs⟩
  intro res hres
  match args with
  | [] => simp [challenge] at hres
  | a :: rest2 => exact challenge_ok_expiry a rest2 collab t0 res hres

/-- C7 witness: with the stub collaborators and creation instant 0, the
session built by `challenge ["2"]` carries expiry 60000000000 ns, and a
candidate read at that very instant is still compared. -/
theorem expiresAt_fixed_at_construction_witness :
    verifyLoop (sessionExpiresAt 0) [97] [ReadEvent.line 60000000000 [97, 10]] =
      (if sessionExpiresAt 0 < 60000000000 then .expired
       else if trimSpace [97, 10] = [97] then .solved
       else verifyLoop (sessionExpiresAt 0) [97] []) :=
  (expiresAt_fixed_at_construction ["2"] stubCollab 0 60000000000 [97]
    [97, 10] [] (by decide)).2.2.2

/-- C10: the integer-parse error of the length argument is discarded, so an
argument that is not a valid decimal integer leaves the parsed length 0 and
the command fails with `ErrChallengeLength`, never a parse error; and since
the range check precedes the power-of-two check, a length above 512 is
reported as `ErrChallengeLength` even when it is not a power of two. -/
theorem atoi_error_discarded_range_precedence (s : String) (rest : List String)
    (collab : Collab) (now : Int) :
    (parseDec s.data = none → goAtoi s = 0 ∧
      challenge (s :: rest) collab now = (.error .errChallengeLength, [])) ∧
    (goAtoi s > 512 →
      challenge (s :: rest) collab now = (.error .errChallengeLength, [])) := by
  have hlen : ¬ (s :: rest).length < 1 := by simp
  constructor
  · intro hnone
    have h0 : goAtoi s = 0 := by
      unfold goAtoi
      rw [hnone]
    refine ⟨h0, ?_⟩
    simp only [challenge, if_neg hlen, List.headD_cons,
      if_pos (Or.inl (le_of_eq h0))]
  · intro h
    simp only [challenge, if_neg hlen, List.headD_cons, if_pos (Or.inr h)]

/-- C10 witness: the non-numeric argument "7x" parses to 0 and is rejected
as out of range, and 513 (not a power of two) is rejected as out of range,
not as a non-power-of-two. -/
theorem atoi_error_discarded_range_precedence_witness :
    (goAtoi "7x" = 0 ∧
      challenge ["7x"] stubCollab 0 = (.error .errChallengeLength, [])) ∧
    challenge ["513"] stubCollab 0 = (.error .errChallengeLength, []) :=
  ⟨(atoi_error_discarded_range_precedence "7x" [] stubCollab 0).1 rfl,
   (atoi_error_discarded_range_precedence "513" [] stubCollab 0).2 (by decide)⟩

end PgpMfa
